import Mathlib

/-!
Verification of the Wiki_scraper image pipeline.

This file gives a shallow embedding of the image-download pipeline of the
repository (src/image_downloader.py, the thread-pool variant, and
src/async_image_downloader.py, the async variant) and settles the spec's
claims about it.

Modelling conventions:
* Python strings are Lean `String`s; the character-class operations
  (str.lower, str.strip, the regex `[^\w\d_-]`) are modelled on the ASCII
  fragment, which covers every input the claims exercise.
* BeautifulSoup queries are modelled by a `Soup` record whose fields hold
  exactly the query results the two locators inspect.
* Network and filesystem effects are modelled by an oracle record
  `WorkerEnv`; each worker returns the updated entry together with the
  number of network requests it issued.
-/

namespace WikiScraper

/-! ### Character-level model of the Python string operations -/

/-- Python str.isspace / str.strip whitespace, ASCII fragment. -/
def pyIsSpace (c : Char) : Bool :=
  c = ' ' || c = '\t' || c = '\n' || c = '\r' || c = '\x0b' || c = '\x0c'

/-- ASCII uppercase letters, the set that Python str.lower maps away. -/
def isUpperAscii (c : Char) : Bool := 65 ≤ c.toNat && c.toNat ≤ 90

/-- The character class kept by the regex sub of `[^\w\d_-]` with the empty
string (ASCII fragment of Python's word characters, plus the hyphen). -/
def keepChar (c : Char) : Bool := c.isAlphanum || c = '_' || c = '-'

/-- One step of Python str.replace applied with arguments a single space and
an underscore: every space character becomes an underscore. -/
def spaceToUnderscore (c : Char) : Char := if c = ' ' then '_' else c

/-- Python str.strip: drop whitespace from both ends. -/
def pyStrip (l : List Char) : List Char :=
  ((l.dropWhile pyIsSpace).reverse.dropWhile pyIsSpace).reverse

/-- The shared name-sanitizing pipeline of both sources
(image_downloader.py:40-41 and :79, async_image_downloader.py:18-19 and :85):
name.lower().strip().replace(" ", "_") followed by re.sub removing every
character outside the kept class. -/
def sanitizeChars (l : List Char) : List Char :=
  (((pyStrip (l.map Char.toLower)).map spaceToUnderscore).filter keepChar)

/-- String version of the sanitizing pipeline; this is the `safe_name`
computation of both workers and the spec's sanitized-name transform. -/
def safeName (name : String) : String := ⟨sanitizeChars name.data⟩

/-- Python str.startswith on character lists. -/
def startswith : List Char → List Char → Bool
  | [], _ => true
  | _ :: _, [] => false
  | p :: ps, s :: ss => p == s && startswith ps ss

/-- Python str.startswith on strings. -/
def startswithS (p s : String) : Bool := startswith p.data s.data

/-! ### Model of urlparse(url).path and os.path.splitext, used by
sanitize_filename to pick the stored file's extension. -/

/-- Scan for the first occurrence of the separator of a scheme (the three
characters colon slash slash) and return what follows it. -/
def afterSchemeSep : List Char → Option (List Char)
  | ':' :: '/' :: '/' :: rest => some rest
  | _ :: rest => afterSchemeSep rest
  | [] => none

/-- Model of Python urlparse(url).path for the URL shapes the pipeline
produces: the fragment and query are cut at the first hash or question mark,
a scheme and network location are skipped, and a protocol-relative URL
(leading double slash) skips its network location. -/
def urlPath (u : List Char) : List Char :=
  let s := u.takeWhile (fun c => !(c == '#') && !(c == '?'))
  match afterSchemeSep s with
  | some rest => rest.dropWhile (fun c => !(c == '/'))
  | none =>
    if startswith ['/', '/'] s then (s.drop 2).dropWhile (fun c => !(c == '/'))
    else s

/-- The part of a path after its last slash. -/
def basenameOf (p : List Char) : List Char :=
  (p.reverse.takeWhile (fun c => !(c == '/'))).reverse

/-- Model of the extension component of os.path.splitext: the suffix from
the last dot of the basename, except that a basename whose characters before
that dot are all dots has no extension. -/
def extOf (p : List Char) : List Char :=
  let b := basenameOf p
  let revExt := b.reverse.takeWhile (fun c => !(c == '.'))
  if revExt.length = b.length then []
  else
    let stem := b.take (b.length - revExt.length - 1)
    if stem.all (fun c => c == '.') then [] else '.' :: revExt.reverse

/-- sanitize_filename (image_downloader.py:36-43, async_image_downloader.py:17-21):
the sanitized name followed by the extension taken from the URL's path,
defaulting to ".jpg" when that extension is empty. -/
def sanitize_filename (name url : String) : String :=
  let ext := extOf (urlPath url.data)
  ⟨sanitizeChars name.data ++ (if ext.isEmpty then ".jpg".data else ext)⟩

/-- Model of os.path.join for a directory with no trailing separator and a
relative basename, the only shapes the pipeline builds. -/
def osJoin (dir f : String) : String := dir ++ "/" ++ f

/-! ### Model of the parsed page and the two image locators -/

/-- An img element as far as the pipeline inspects it: its src attribute,
when present. -/
structure HtmlTag where
  src : Option String
deriving DecidableEq

/-- The BeautifulSoup query results the two locators inspect on one page.
A value of none at the outer layer means the container was not found; the
inner layer holds the img-search result inside the found container. -/
structure Soup where
  /-- First table whose class contains "infobox biota"; inner value is its
  first img descendant, if any. -/
  infoboxBiotaImg : Option (Option HtmlTag)
  /-- First element with typeof mw:File/Thumb; inner value is the src of its
  first img descendant that carries a src attribute, if any. -/
  thumbImgSrc : Option (Option String)
  /-- First element with typeof mw:File; inner value is the src of its first
  img descendant that carries a src attribute, if any. -/
  fileImgSrc : Option (Option String)
  /-- First img element with class mw-file-element, if any. -/
  mwFileElementImg : Option HtmlTag
deriving DecidableEq

/-- Python truthiness of tag.get applied to "src": the attribute is present
and non-empty. -/
def tagSrcTruthy : HtmlTag → Bool
  | ⟨some s⟩ => !(s == "")
  | ⟨none⟩ => false

/-- Truthiness of an optional tag's src: the tag exists and tagSrcTruthy. -/
def optTagSrcTruthy : Option HtmlTag → Bool
  | some t => tagSrcTruthy t
  | none => false

/-- find_first_content_image (image_downloader.py:45-65): try the
mw:File/Thumb container, then the mw:File container, then any img with
class mw-file-element whose src is truthy. -/
def find_first_content_image (soup : Soup) : Option HtmlTag :=
  match soup.thumbImgSrc with
  | some (some s) => some ⟨some s⟩
  | _ =>
    match soup.fileImgSrc with
    | some (some s) => some ⟨some s⟩
    | _ =>
      match soup.mwFileElementImg with
      | some t => if tagSrcTruthy t then some t else none
      | none => none

/-- The image selection of the thread-pool worker
(image_downloader.py:90-100): the infobox biota table's first img when its
src is truthy, otherwise find_first_content_image; the selected tag's src is
returned when truthy. -/
def syncSelectSrc (soup : Soup) : Option String :=
  let img0 : Option HtmlTag := soup.infoboxBiotaImg.getD none
  let img1 : Option HtmlTag :=
    if optTagSrcTruthy img0 then img0 else find_first_content_image soup
  match img1 with
  | some t =>
    match t.src with
    | some s => if s == "" then none else some s
    | none => none
  | none => none

/-- The URL normalization both workers apply to a located src
(image_downloader.py:101-104, async_image_downloader.py:69-73). -/
def normalizeImgUrl (src : String) : String :=
  if startswithS "//" src then "https:" ++ src
  else if startswithS "/" src then "https://en.wikipedia.org" ++ src
  else src

/-- extract_image_url (async_image_downloader.py:64-74): the infobox biota
table's first img when the table exists, otherwise any img with class
mw-file-element; when that tag has a truthy src, the normalized src. -/
def extract_image_url (soup : Soup) : Option String :=
  let img_tag : Option HtmlTag :=
    match soup.infoboxBiotaImg with
    | some imgOpt => imgOpt
    | none => soup.mwFileElementImg
  match img_tag with
  | some t =>
    match t.src with
    | some s => if s == "" then none else some (normalizeImgUrl s)
    | none => none
  | none => none

/-! ### Entity records and the per-entity workers -/

/-- An entity record as the pipeline reads it: the dict keys name, wiki_url
and local_image, each possibly absent. -/
structure Entry where
  name : Option String
  wiki_url : Option String
  local_image : Option String
deriving DecidableEq

/-- Python truthiness of an optional string: present and non-empty. -/
def optTruthy : Option String → Bool
  | none => false
  | some s => !(s == "")

/-- Oracles for the external effects a worker performs: the cache-directory
listing taken at probe time, the page fetch (none covers every page-fetch
failure: exception, timeout, non-success status, empty body), whether the
image fetch-and-write at a URL succeeds, and os.path.exists. -/
structure WorkerEnv where
  listing : List String
  page : String → Option Soup
  imageFetchOk : String → Bool
  fileAt : String → Bool

/-- download_image_from_entry (image_downloader.py:67-121), the thread-pool
worker. Returns the updated entry and the number of network requests made.
The outer try/except of the source converts every failure into a plain
return, which this total function reflects directly. -/
def download_image_from_entry (env : WorkerEnv) (image_dir : String)
    (entry : Entry) : Entry × Nat :=
  if !(optTruthy entry.wiki_url) then (entry, 0)
  else
    let url := entry.wiki_url.getD ""
    let name := entry.name.getD "unknown"
    let safe_name := safeName name
    match env.listing.filter (fun f => startswithS safe_name f) with
    | f :: _ => ({ entry with local_image := some (osJoin image_dir f) }, 0)
    | [] =>
      match env.page url with
      | none => (entry, 1)
      | some soup =>
        match syncSelectSrc soup with
        | none => (entry, 1)
        | some src =>
          let img_url := normalizeImgUrl src
          let filename := sanitize_filename name img_url
          let local_path := osJoin image_dir filename
          if env.imageFetchOk img_url then
            ({ entry with local_image := some local_path }, 2)
          else (entry, 2)

/-- process_entry (async_image_downloader.py:76-116), the async worker.
Identical pipeline except for the locator and the post-locate existence
check on the exact destination path. -/
def process_entry (env : WorkerEnv) (image_dir : String)
    (entry : Entry) : Entry × Nat :=
  if !(optTruthy entry.wiki_url) then (entry, 0)
  else
    let url := entry.wiki_url.getD ""
    let name := entry.name.getD "unknown"
    let safe_name := safeName name
    match env.listing.filter (fun f => startswithS safe_name f) with
    | f :: _ => ({ entry with local_image := some (osJoin image_dir f) }, 0)
    | [] =>
      match env.page url with
      | none => (entry, 1)
      | some soup =>
        match extract_image_url soup with
        | none => (entry, 1)
        | some img_url =>
          let filename := sanitize_filename name img_url
          let local_path := osJoin image_dir filename
          if env.fileAt local_path then
            ({ entry with local_image := some local_path }, 1)
          else if env.imageFetchOk img_url then
            ({ entry with local_image := some local_path }, 2)
          else (entry, 2)

/-! ### Batch scheduling -/

/-- The list of worker invocations the thread-pool batch schedules
(image_downloader.py:128): the mapping's values flattened, with no filter. -/
def scheduledEntriesSync (mapping : List (String × List Entry)) : List Entry :=
  (mapping.map Prod.snd).flatten

/-- The list of worker invocations the async batch schedules
(async_image_downloader.py:123): the mapping's values flattened, keeping
only entries whose wiki_url is truthy. -/
def scheduledEntriesAsync (mapping : List (String × List Entry)) : List Entry :=
  ((mapping.map Prod.snd).flatten).filter (fun e => optTruthy e.wiki_url)

/-! ### The concurrency orchestrator as a transition system

The async batch (async_image_downloader.py:92-127) runs one task per
scheduled entry; each task's network section (page fetch then image fetch)
runs inside "async with self.semaphore", a counting semaphore of capacity
equal to the configured concurrency, and asyncio.gather returns once every
task has finished. The counter abstraction below tracks how many tasks are
in each phase: not yet at the semaphore, blocked on acquire, inside the
semaphore (the only phase in which fetch calls execute), and finished. -/

/-- Phase counters of the batch: tasks before the network section, tasks
blocked on the semaphore, tasks holding a semaphore permit (performing
their fetches), and finished tasks. -/
structure OrchState where
  pending : Nat
  waiting : Nat
  active : Nat
  finished : Nat
deriving DecidableEq

/-- One scheduler step of the batch under a semaphore of the given
capacity. A task may finish locally (cache hit or missing URL — no network
section), reach the semaphore, acquire a permit when fewer than limit are
held, or release its permit when its fetches are done. -/
inductive OrchStep (limit : Nat) : OrchState → OrchState → Prop
  | finishLocal (p w a f : Nat) :
      OrchStep limit ⟨p + 1, w, a, f⟩ ⟨p, w, a, f + 1⟩
  | reachSem (p w a f : Nat) :
      OrchStep limit ⟨p + 1, w, a, f⟩ ⟨p, w + 1, a, f⟩
  | acquire (p w a f : Nat) (h : a < limit) :
      OrchStep limit ⟨p, w + 1, a, f⟩ ⟨p, w, a + 1, f⟩
  | release (p w a f : Nat) :
      OrchStep limit ⟨p, w, a + 1, f⟩ ⟨p, w, a, f + 1⟩

/-- The batch's initial state: n scheduled tasks, none started. -/
def orchInit (n : Nat) : OrchState := ⟨n, 0, 0, 0⟩

/-- States the batch can reach from its initial state. -/
def OrchReachable (limit n : Nat) (s : OrchState) : Prop :=
  Relation.ReflTransGen (OrchStep limit) (orchInit n) s

/-- asyncio.gather (and likewise the thread-pool executor's shutdown on
exiting the with block) returns exactly when no task is unfinished. -/
def batchReturned (s : OrchState) : Prop :=
  s.pending = 0 ∧ s.waiting = 0 ∧ s.active = 0

/-! ### Definitions following the spec's words, for comparison with the
source-derived definitions above -/

/-- Rule 1 of the spec's locator: the biographical-summary (infobox) panel
exists and its first embedded image carries a reference. -/
def infoboxRule (soup : Soup) : Option String :=
  match soup.infoboxBiotaImg with
  | some (some t) => t.src
  | _ => none

/-- Rule 2 of the spec's locator: a file-thumbnail container with an
embedded image carrying a reference. -/
def thumbRule (soup : Soup) : Option String :=
  match soup.thumbImgSrc with
  | some (some s) => some s
  | _ => none

/-- Rule 3 of the spec's locator: a generic file container with an embedded
image carrying a reference. -/
def fileRule (soup : Soup) : Option String :=
  match soup.fileImgSrc with
  | some (some s) => some s
  | _ => none

/-- Rule 4 of the spec's locator: any image element with the article-file
marker class carrying a reference. -/
def markerRule (soup : Soup) : Option String :=
  match soup.mwFileElementImg with
  | some t => t.src
  | none => none

/-- The spec's locate (spec section 4.3), written as the claim states it:
the four rules in strict priority order, returning the first hit, and
nothing when no rule matches. -/
def locateSpec (soup : Soup) : Option String :=
  match infoboxRule soup with
  | some s => some s
  | none =>
    match thumbRule soup with
    | some s => some s
    | none =>
      match fileRule soup with
      | some s => some s
      | none => markerRule soup

/-- The locator the async source actually implements, in spec terms: rule 1
when the infobox panel exists (with no fallback past an imageless panel),
otherwise rule 4; rules 2 and 3 are absent. -/
def asyncLocateSpec (soup : Soup) : Option String :=
  match soup.infoboxBiotaImg with
  | some imgOpt =>
    match imgOpt with
    | some t => t.src
    | none => none
  | none => markerRule soup

/-- A page model is well-formed when every src attribute it records is
non-empty, as on any real page; the spec's rules do not contemplate an
image whose src attribute is present but empty. -/
def soupWf (soup : Soup) : Bool :=
  (match soup.infoboxBiotaImg with
   | some (some ⟨some s⟩) => !(s == "")
   | _ => true) &&
  (match soup.thumbImgSrc with
   | some (some s) => !(s == "")
   | _ => true) &&
  (match soup.fileImgSrc with
   | some (some s) => !(s == "")
   | _ => true) &&
  (match soup.mwFileElementImg with
   | some ⟨some s⟩ => !(s == "")
   | _ => true)

/-- The normalization as the claim states it, parameterized by the source
page's host: a site-relative reference is resolved against that host. -/
def normalizeImgUrlSpec (host src : String) : String :=
  if startswithS "//" src then "https:" ++ src
  else if startswithS "/" src then "https://" ++ host ++ src
  else src

/-- Worker for collapseWhitespaceRuns; the flag records whether the
previous character was whitespace, so a run emits one underscore. -/
def collapseAux : Bool → List Char → List Char
  | _, [] => []
  | prevSpace, c :: rest =>
    if pyIsSpace c then
      if prevSpace then collapseAux true rest
      else '_' :: collapseAux true rest
    else c :: collapseAux false rest

/-- Replace each maximal run of whitespace by a single underscore, as the
claim's reading of the sanitizer demands. -/
def collapseWhitespaceRuns (l : List Char) : List Char := collapseAux false l

/-- The sanitizer as claim C8 states it: lower-case, trim, replace each
whitespace run with a single separator, strip characters outside the
permitted set. -/
def safeNameSpecC8 (name : String) : String :=
  ⟨(collapseWhitespaceRuns (pyStrip (name.data.map Char.toLower))).filter keepChar⟩

/-! ### Concrete fixtures used by witnesses and counterexamples -/

/-- A cache directory already holding the file for the entity Red Fox. -/
def envCacheHit : WorkerEnv :=
  ⟨["red_fox.jpg"], fun _ => none, fun _ => false, fun _ => false⟩

/-- The entity Red Fox with its source page. -/
def entryRedFox : Entry :=
  ⟨some "Red Fox", some "https://en.wikipedia.org/wiki/Red_fox", none⟩

/-- An empty cache and a page fetch that always fails. -/
def envPageFail : WorkerEnv :=
  ⟨[], fun _ => none, fun _ => false, fun _ => false⟩

/-- A page whose only image sits in a mw:File/Thumb container. -/
def soupThumbOnly : Soup := ⟨none, some (some "//t/a.png"), none, none⟩

/-- A page whose infobox biota table holds an image. -/
def soupInfoboxFox : Soup := ⟨some (some ⟨some "//u/fox.jpg"⟩), none, none, none⟩

/-- An empty cache, a page with an infobox image, a succeeding image fetch,
and a filesystem on which every path already exists. -/
def envExistingDest : WorkerEnv :=
  ⟨[], fun _ => some soupInfoboxFox, fun _ => true, fun _ => true⟩

/-- The entity Fox with its source page. -/
def entryFox : Entry := ⟨some "Fox", some "https://en.wikipedia.org/wiki/Fox", none⟩

/-- An entity that carries no source URL. -/
def entryNoUrl : Entry := ⟨some "Cat", none, none⟩

/-- A one-category mapping holding only the URL-less entity. -/
def mappingNoUrl : List (String × List Entry) := [("feline", [entryNoUrl])]

/-- An entity whose name sanitizes to the empty string. -/
def entryBang : Entry :=
  ⟨some "!!!", some "https://en.wikipedia.org/wiki/Exclamation", none⟩

/-- A cache directory holding only another entity's file. -/
def envOtherFile : WorkerEnv :=
  ⟨["zebra.jpg"], fun _ => none, fun _ => false, fun _ => false⟩

/-! ### Helper lemmas on characters and the sanitizing pipeline -/

lemma charToNat_ofNat_valid (n : Nat) (h1 : 97 ≤ n) (h2 : n ≤ 122) :
    (Char.ofNat n).toNat = n := by
  have hv : n.isValidChar := Or.inl (by omega)
  simp [Char.ofNat, hv, Char.ofNatAux, Char.toNat, UInt32.toNat, BitVec.toNat_ofNatLt]

lemma isUpperAscii_toLower (c : Char) : isUpperAscii (Char.toLower c) = false := by
  unfold Char.toLower isUpperAscii
  by_cases h : c.toNat ≥ 65 ∧ c.toNat ≤ 90
  · rw [if_pos h]
    rw [charToNat_ofNat_valid (c.toNat + 32) (by omega) (by omega)]
    simp only [Bool.and_eq_false_iff, decide_eq_false_iff_not]
    omega
  · rw [if_neg h]
    simp only [Bool.and_eq_false_iff, decide_eq_false_iff_not]
    omega

lemma toLower_eq_self (c : Char) (h : isUpperAscii c = false) :
    Char.toLower c = c := by
  unfold Char.toLower
  unfold isUpperAscii at h
  simp only [Bool.and_eq_false_iff, decide_eq_false_iff_not] at h
  have h' : ¬(c.toNat ≥ 65 ∧ c.toNat ≤ 90) := by omega
  rw [if_neg h']

lemma keepChar_not_space (c : Char) (h : keepChar c = true) :
    pyIsSpace c = false := by
  by_contra hc
  simp only [Bool.not_eq_false] at hc
  have h6 : c = ' ' ∨ c = '\t' ∨ c = '\n' ∨ c = '\r' ∨ c = '\x0b' ∨ c = '\x0c' := by
    simpa [pyIsSpace, or_assoc] using hc
  rcases h6 with rfl | rfl | rfl | rfl | rfl | rfl
  all_goals revert h
  all_goals decide

lemma keepChar_ne_space (c : Char) (h : keepChar c = true) : c ≠ ' ' := by
  intro he
  subst he
  revert h
  decide

lemma spaceToUnderscore_eq_self (c : Char) (h : keepChar c = true) :
    spaceToUnderscore c = c := by
  unfold spaceToUnderscore
  rw [if_neg (keepChar_ne_space c h)]

lemma mem_of_mem_pyStrip {c : Char} {l : List Char} (h : c ∈ pyStrip l) :
    c ∈ l := by
  unfold pyStrip at h
  rw [List.mem_reverse] at h
  have h1 := (List.dropWhile_sublist pyIsSpace).subset h
  rw [List.mem_reverse] at h1
  exact (List.dropWhile_sublist pyIsSpace).subset h1

lemma sanitizeChars_mem {c : Char} {l : List Char} (h : c ∈ sanitizeChars l) :
    keepChar c = true ∧ isUpperAscii c = false := by
  unfold sanitizeChars at h
  have hk : keepChar c = true := List.of_mem_filter h
  have hm := List.mem_of_mem_filter h
  obtain ⟨d, hd, rfl⟩ := List.mem_map.mp hm
  obtain ⟨x, _, rfl⟩ := List.mem_map.mp (mem_of_mem_pyStrip hd)
  refine ⟨hk, ?_⟩
  unfold spaceToUnderscore
  by_cases hsp : Char.toLower x = ' '
  · rw [if_pos hsp]; decide
  · rw [if_neg hsp]; exact isUpperAscii_toLower x

lemma map_eq_self_of {α : Type} (l : List α) (f : α → α)
    (h : ∀ a ∈ l, f a = a) : l.map f = l := by
  induction l with
  | nil => rfl
  | cons a t ih =>
    simp only [List.map_cons, h a (by simp)]
    rw [ih (fun b hb => h b (by simp [hb]))]

lemma dropWhile_eq_self_of {α : Type} (l : List α) (p : α → Bool)
    (h : ∀ a ∈ l, p a = false) : l.dropWhile p = l := by
  cases l with
  | nil => rfl
  | cons a t =>
    rw [List.dropWhile_cons, h a (by simp)]
    simp

lemma pyStrip_eq_self_of (l : List Char)
    (h : ∀ a ∈ l, pyIsSpace a = false) : pyStrip l = l := by
  unfold pyStrip
  rw [dropWhile_eq_self_of l _ h,
    dropWhile_eq_self_of _ _ (fun a ha => h a (List.mem_reverse.mp ha)),
    List.reverse_reverse]

lemma sanitizeChars_fixed (L : List Char)
    (h : ∀ c ∈ L, keepChar c = true ∧ isUpperAscii c = false) :
    sanitizeChars L = L := by
  unfold sanitizeChars
  rw [map_eq_self_of L Char.toLower (fun a ha => toLower_eq_self a (h a ha).2)]
  rw [pyStrip_eq_self_of L (fun a ha => keepChar_not_space a (h a ha).1)]
  rw [map_eq_self_of L spaceToUnderscore
    (fun a ha => spaceToUnderscore_eq_self a (h a ha).1)]
  exact List.filter_eq_self.mpr (fun a ha => (h a ha).1)

lemma sanitizeChars_idem (l : List Char) :
    sanitizeChars (sanitizeChars l) = sanitizeChars l :=
  sanitizeChars_fixed _ (fun _ hc => sanitizeChars_mem hc)

lemma pyStrip_cons_concat (a b : Char) (m : List Char)
    (ha : pyIsSpace a = false) (hb : pyIsSpace b = false) :
    pyStrip (a :: (m ++ [b])) = a :: (m ++ [b]) := by
  unfold pyStrip
  rw [show List.dropWhile pyIsSpace (a :: (m ++ [b])) = a :: (m ++ [b]) by
    rw [List.dropWhile_cons, ha]; simp]
  rw [show (a :: (m ++ [b])).reverse = b :: (m.reverse ++ [a]) by simp]
  rw [show List.dropWhile pyIsSpace (b :: (m.reverse ++ [a]))
      = b :: (m.reverse ++ [a]) by
    rw [List.dropWhile_cons, hb]; simp]
  simp

/-! ### Worker evaluation lemmas -/

lemma cache_hit_sync (env : WorkerEnv) (dir : String) (e : Entry)
    (f : String) (rest : List String)
    (hurl : optTruthy e.wiki_url = true)
    (hcache : env.listing.filter
      (fun fn => startswithS (safeName (e.name.getD "unknown")) fn) = f :: rest) :
    download_image_from_entry env dir e
      = ({ e with local_image := some (osJoin dir f) }, 0) := by
  simp only [download_image_from_entry, hurl, hcache]
  simp

lemma cache_hit_async (env : WorkerEnv) (dir : String) (e : Entry)
    (f : String) (rest : List String)
    (hurl : optTruthy e.wiki_url = true)
    (hcache : env.listing.filter
      (fun fn => startswithS (safeName (e.name.getD "unknown")) fn) = f :: rest) :
    process_entry env dir e
      = ({ e with local_image := some (osJoin dir f) }, 0) := by
  simp only [process_entry, hurl, hcache]
  simp

lemma filter_all_of_empty_safeName (listing : List String) (nm : String)
    (h : safeName nm = "") :
    listing.filter (fun fn => startswithS (safeName nm) fn) = listing := by
  apply List.filter_eq_self.mpr
  intro a _
  rw [h]
  rfl

lemma page_fail_sync (env : WorkerEnv) (dir : String) (e : Entry)
    (hurl : optTruthy e.wiki_url = true)
    (hmiss : env.listing.filter
      (fun fn => startswithS (safeName (e.name.getD "unknown")) fn) = [])
    (hpage : env.page (e.wiki_url.getD "") = none) :
    download_image_from_entry env dir e = (e, 1) := by
  simp only [download_image_from_entry, hurl, hmiss, hpage]
  simp

lemma page_fail_async (env : WorkerEnv) (dir : String) (e : Entry)
    (hurl : optTruthy e.wiki_url = true)
    (hmiss : env.listing.filter
      (fun fn => startswithS (safeName (e.name.getD "unknown")) fn) = [])
    (hpage : env.page (e.wiki_url.getD "") = none) :
    process_entry env dir e = (e, 1) := by
  simp only [process_entry, hurl, hmiss, hpage]
  simp

lemma no_image_sync (env : WorkerEnv) (dir : String) (e : Entry) (soup : Soup)
    (hurl : optTruthy e.wiki_url = true)
    (hmiss : env.listing.filter
      (fun fn => startswithS (safeName (e.name.getD "unknown")) fn) = [])
    (hpage : env.page (e.wiki_url.getD "") = some soup)
    (hsel : syncSelectSrc soup = none) :
    download_image_from_entry env dir e = (e, 1) := by
  simp only [download_image_from_entry, hurl, hmiss, hpage, hsel]
  simp

lemma no_image_async (env : WorkerEnv) (dir : String) (e : Entry) (soup : Soup)
    (hurl : optTruthy e.wiki_url = true)
    (hmiss : env.listing.filter
      (fun fn => startswithS (safeName (e.name.getD "unknown")) fn) = [])
    (hpage : env.page (e.wiki_url.getD "") = some soup)
    (hsel : extract_image_url soup = none) :
    process_entry env dir e = (e, 1) := by
  simp only [process_entry, hurl, hmiss, hpage, hsel]
  simp

lemma image_fail_sync (env : WorkerEnv) (dir : String) (e : Entry)
    (soup : Soup) (src : String)
    (hurl : optTruthy e.wiki_url = true)
    (hmiss : env.listing.filter
      (fun fn => startswithS (safeName (e.name.getD "unknown")) fn) = [])
    (hpage : env.page (e.wiki_url.getD "") = some soup)
    (hsel : syncSelectSrc soup = some src)
    (hfetch : env.imageFetchOk (normalizeImgUrl src) = false) :
    download_image_from_entry env dir e = (e, 2) := by
  simp only [download_image_from_entry, hurl, hmiss, hpage, hsel, hfetch]
  simp

lemma exists_hit_async (env : WorkerEnv) (dir : String) (e : Entry)
    (soup : Soup) (u : String)
    (hurl : optTruthy e.wiki_url = true)
    (hmiss : env.listing.filter
      (fun fn => startswithS (safeName (e.name.getD "unknown")) fn) = [])
    (hpage : env.page (e.wiki_url.getD "") = some soup)
    (hext : extract_image_url soup = some u)
    (hex : env.fileAt
      (osJoin dir (sanitize_filename (e.name.getD "unknown") u)) = true) :
    process_entry env dir e
      = ({ e with
            local_image := some (osJoin dir (sanitize_filename (e.name.getD "unknown") u)) },
         1) := by
  simp only [process_entry, hurl, hmiss, hpage, hext, hex]
  simp

lemma image_fail_async (env : WorkerEnv) (dir : String) (e : Entry)
    (soup : Soup) (u : String)
    (hurl : optTruthy e.wiki_url = true)
    (hmiss : env.listing.filter
      (fun fn => startswithS (safeName (e.name.getD "unknown")) fn) = [])
    (hpage : env.page (e.wiki_url.getD "") = some soup)
    (hext : extract_image_url soup = some u)
    (hex : env.fileAt
      (osJoin dir (sanitize_filename (e.name.getD "unknown") u)) = false)
    (hfetch : env.imageFetchOk u = false) :
    process_entry env dir e = (e, 2) := by
  simp only [process_entry, hurl, hmiss, hpage, hext, hex, hfetch]
  simp

/-! ### The claims -/

/-- C1: for every entity with a source URL, if before the run the cache
directory holds at least one file whose basename starts with the sanitized
name, then both workers perform zero network calls and set the local image
field to the first such file of the directory listing. -/
theorem spec_c1 (env : WorkerEnv) (dir : String) (e : Entry)
    (f : String) (rest : List String)
    (hurl : optTruthy e.wiki_url = true)
    (hcache : env.listing.filter
      (fun fn => startswithS (safeName (e.name.getD "unknown")) fn) = f :: rest) :
    download_image_from_entry env dir e
      = ({ e with local_image := some (osJoin dir f) }, 0) ∧
    process_entry env dir e
      = ({ e with local_image := some (osJoin dir f) }, 0) :=
  ⟨cache_hit_sync env dir e f rest hurl hcache,
   cache_hit_async env dir e f rest hurl hcache⟩

/-- Witness for C1: the Red Fox entity against a cache already holding
red_fox.jpg. -/
theorem spec_c1_witness :
    download_image_from_entry envCacheHit "tmp" entryRedFox
      = ({ entryRedFox with local_image := some (osJoin "tmp" "red_fox.jpg") }, 0) ∧
    process_entry envCacheHit "tmp" entryRedFox
      = ({ entryRedFox with local_image := some (osJoin "tmp" "red_fox.jpg") }, 0) :=
  spec_c1 envCacheHit "tmp" entryRedFox "red_fox.jpg" [] (by decide) (by decide)

/-- C2: every failure inside a worker (page-fetch failure, no image found,
image-fetch failure) is recovered at the worker boundary: the worker
returns normally with the entity record unchanged, its local image field
left unset. The embedding is total, so returning a value is returning
normally; the source's except/early-return paths are exactly the branches
below. -/
theorem spec_c2 (env : WorkerEnv) (dir : String) (e : Entry)
    (hurl : optTruthy e.wiki_url = true)
    (hmiss : env.listing.filter
      (fun fn => startswithS (safeName (e.name.getD "unknown")) fn) = []) :
    (env.page (e.wiki_url.getD "") = none →
      download_image_from_entry env dir e = (e, 1) ∧
      process_entry env dir e = (e, 1)) ∧
    (∀ soup, env.page (e.wiki_url.getD "") = some soup →
      (syncSelectSrc soup = none → download_image_from_entry env dir e = (e, 1)) ∧
      (extract_image_url soup = none → process_entry env dir e = (e, 1)) ∧
      (∀ src, syncSelectSrc soup = some src →
        env.imageFetchOk (normalizeImgUrl src) = false →
        download_image_from_entry env dir e = (e, 2)) ∧
      (∀ u, extract_image_url soup = some u →
        env.fileAt (osJoin dir (sanitize_filename (e.name.getD "unknown") u)) = false →
        env.imageFetchOk u = false →
        process_entry env dir e = (e, 2))) :=
  ⟨fun hp => ⟨page_fail_sync env dir e hurl hmiss hp,
              page_fail_async env dir e hurl hmiss hp⟩,
   fun soup hp =>
    ⟨fun hs => no_image_sync env dir e soup hurl hmiss hp hs,
     fun hs => no_image_async env dir e soup hurl hmiss hp hs,
     fun src hs hf => image_fail_sync env dir e soup src hurl hmiss hp hs hf,
     fun u hs hex hf => image_fail_async env dir e soup u hurl hmiss hp hs hex hf⟩⟩

/-- Witness for C2: a failing page fetch leaves the Red Fox entity
untouched in both workers. -/
theorem spec_c2_witness :
    download_image_from_entry envPageFail "tmp" entryRedFox = (entryRedFox, 1) ∧
    process_entry envPageFail "tmp" entryRedFox = (entryRedFox, 1) :=
  (spec_c2 envPageFail "tmp" entryRedFox (by decide) (by decide)).1 (by decide)

/-- C10 (implicit): for an entity whose name sanitizes to the empty string,
the cache probe's filter keeps every file, so a non-empty cache directory is
always a cache hit: the local image field is set to the directory's first
file — some other entity's image — and no network call is performed. -/
theorem spec_c10 (env : WorkerEnv) (dir : String) (e : Entry)
    (f : String) (rest : List String)
    (hurl : optTruthy e.wiki_url = true)
    (hempty : safeName (e.name.getD "unknown") = "")
    (hlist : env.listing = f :: rest) :
    download_image_from_entry env dir e
      = ({ e with local_image := some (osJoin dir f) }, 0) ∧
    process_entry env dir e
      = ({ e with local_image := some (osJoin dir f) }, 0) := by
  have hcache : env.listing.filter
      (fun fn => startswithS (safeName (e.name.getD "unknown")) fn) = f :: rest := by
    rw [filter_all_of_empty_safeName env.listing _ hempty, hlist]
  exact ⟨cache_hit_sync env dir e f rest hurl hcache,
         cache_hit_async env dir e f rest hurl hcache⟩

/-- Witness for C10: the entity named with three exclamation marks picks up
zebra.jpg, another entity's image, without any network call. -/
theorem spec_c10_witness :
    download_image_from_entry envOtherFile "tmp" entryBang
      = ({ entryBang with local_image := some (osJoin "tmp" "zebra.jpg") }, 0) ∧
    process_entry envOtherFile "tmp" entryBang
      = ({ entryBang with local_image := some (osJoin "tmp" "zebra.jpg") }, 0) :=
  spec_c10 envOtherFile "tmp" entryBang "zebra.jpg" [] (by decide) (by decide) (by decide)

/-- C3 counterexample: the thread-pool batch does not filter URL-less
entities — it schedules a worker invocation for the entity without a
source URL, while the async batch filters it out. -/
theorem spec_c3_counterexample :
    optTruthy entryNoUrl.wiki_url = false ∧
    scheduledEntriesSync mappingNoUrl = [entryNoUrl] ∧
    scheduledEntriesAsync mappingNoUrl = [] := by decide

/-- C3 amended: the async batch filters its input to entities with a truthy
source URL and schedules exactly one worker invocation per remaining
entity; the thread-pool batch schedules one invocation per entity with no
filter at all, relying on the worker's own no-URL branch. -/
theorem spec_c3_amended (m : List (String × List Entry)) (e : Entry) :
    scheduledEntriesSync m = (m.map Prod.snd).flatten ∧
    (optTruthy e.wiki_url = false → (scheduledEntriesAsync m).count e = 0) ∧
    (optTruthy e.wiki_url = true →
      (scheduledEntriesAsync m).count e = (scheduledEntriesSync m).count e) := by
  refine ⟨rfl, ?_, ?_⟩
  · intro h
    apply List.count_eq_zero.mpr
    intro hmem
    have hkeep := List.of_mem_filter hmem
    rw [h] at hkeep
    exact absurd hkeep (by simp)
  · intro h
    exact List.count_filter h

/-- Witness for C3 amended: the async batch schedules nothing for the
URL-less entity. -/
theorem spec_c3_amended_witness :
    (scheduledEntriesAsync mappingNoUrl).count entryNoUrl = 0 :=
  (spec_c3_amended mappingNoUrl entryNoUrl).2.1 (by decide)

/-- C4: in every reachable state of the batch's transition system, at most
limit tasks are inside the semaphore (so at most limit fetch calls execute
at any instant, regardless of the entity count n), the task count is
conserved, and when the batch returns every scheduled task has finished. -/
theorem spec_c4 (limit n : Nat) (s : OrchState)
    (h : OrchReachable limit n s) :
    s.active ≤ limit ∧
    s.pending + s.waiting + s.active + s.finished = n ∧
    (batchReturned s → s.finished = n) := by
  induction h with
  | refl =>
    refine ⟨Nat.zero_le _, by simp [orchInit], fun hb => ?_⟩
    obtain ⟨h1, -, -⟩ := hb
    simp only [orchInit] at h1 ⊢
    omega
  | tail hab hbc ih =>
    obtain ⟨ih1, ih2, -⟩ := ih
    cases hbc with
    | finishLocal p w a f =>
      have ia : a ≤ limit := ih1
      have is' : p + 1 + w + a + f = n := ih2
      refine ⟨ia, (by omega : p + w + a + (f + 1) = n), fun hb => ?_⟩
      have e1 : p = 0 := hb.1
      have e2 : w = 0 := hb.2.1
      have e3 : a = 0 := hb.2.2
      exact (by omega : f + 1 = n)
    | reachSem p w a f =>
      have ia : a ≤ limit := ih1
      have is' : p + 1 + w + a + f = n := ih2
      refine ⟨ia, (by omega : p + (w + 1) + a + f = n), fun hb => ?_⟩
      have e2 : w + 1 = 0 := hb.2.1
      exact (by omega : f = n)
    | acquire p w a f hlt =>
      have is' : p + (w + 1) + a + f = n := ih2
      refine ⟨(by omega : a + 1 ≤ limit), (by omega : p + w + (a + 1) + f = n),
        fun hb => ?_⟩
      have e3 : a + 1 = 0 := hb.2.2
      exact (by omega : f = n)
    | release p w a f =>
      have ia : a + 1 ≤ limit := ih1
      have is' : p + w + (a + 1) + f = n := ih2
      refine ⟨(by omega : a ≤ limit), (by omega : p + w + a + (f + 1) = n),
        fun hb => ?_⟩
      have e1 : p = 0 := hb.1
      have e2 : w = 0 := hb.2.1
      have e3 : a = 0 := hb.2.2
      exact (by omega : f + 1 = n)

/-- Witness for C4: a one-task batch that finishes locally, under limit 1. -/
theorem spec_c4_witness :
    (⟨0, 0, 0, 1⟩ : OrchState).active ≤ 1 ∧
    (⟨0, 0, 0, 1⟩ : OrchState).pending + (⟨0, 0, 0, 1⟩ : OrchState).waiting
      + (⟨0, 0, 0, 1⟩ : OrchState).active + (⟨0, 0, 0, 1⟩ : OrchState).finished = 1 ∧
    (batchReturned ⟨0, 0, 0, 1⟩ → (⟨0, 0, 0, 1⟩ : OrchState).finished = 1) :=
  spec_c4 1 1 ⟨0, 0, 0, 1⟩
    (Relation.ReflTransGen.single (OrchStep.finishLocal 0 0 0 0))

/-- C6 counterexample: the normalization of a site-relative reference uses
the fixed host en.wikipedia.org, not the source page's host — for a source
page on de.wikipedia.org the claim requires the de host, the code produces
the en host. -/
theorem spec_c6_counterexample :
    normalizeImgUrl "/img.png" = "https://en.wikipedia.org/img.png" ∧
    normalizeImgUrlSpec "de.wikipedia.org" "/img.png"
      = "https://de.wikipedia.org/img.png" ∧
    normalizeImgUrl "/img.png" ≠ normalizeImgUrlSpec "de.wikipedia.org" "/img.png" := by
  decide

/-- C6 amended: the normalization is exactly the claim's three rules with
the host fixed at en.wikipedia.org, whatever the source page's host is. -/
theorem spec_c6_amended (src : String) :
    normalizeImgUrl src = normalizeImgUrlSpec "en.wikipedia.org" src := by
  unfold normalizeImgUrl normalizeImgUrlSpec
  by_cases h1 : startswithS "//" src = true
  · rw [if_pos h1, if_pos h1]
  · rw [if_neg h1, if_neg h1]
    by_cases h2 : startswithS "/" src = true
    · rw [if_pos h2, if_pos h2]
      rfl
    · rw [if_neg h2, if_neg h2]

/-- C5 counterexample: on a page whose only image sits in a mw:File/Thumb
container, rule 2 of the spec's locator hits (and the thread-pool locator
finds it), but the async locator returns nothing — it implements only rules
1 and 4. -/
theorem spec_c5_counterexample :
    locateSpec soupThumbOnly = some "//t/a.png" ∧
    syncSelectSrc soupThumbOnly = some "//t/a.png" ∧
    extract_image_url soupThumbOnly = none := by decide

/-- C5 amended: on well-formed pages the thread-pool locator applies the
four rules in strict priority order, returning the first hit and nothing
when none match; the async locator implements only rule 1 and rule 4, with
no fallback past an infobox panel that lacks a usable image. -/
theorem spec_c5_amended (soup : Soup) (hwf : soupWf soup = true) :
    syncSelectSrc soup = locateSpec soup ∧
    extract_image_url soup = (asyncLocateSpec soup).map normalizeImgUrl := by
  obtain ⟨a, b, c, d⟩ := soup
  rcases a with _ | (_ | ⟨_ | sa⟩) <;>
  rcases b with _ | (_ | sb) <;>
  rcases c with _ | (_ | sc) <;>
  rcases d with _ | ⟨_ | sd⟩ <;>
  simp_all [soupWf, syncSelectSrc, locateSpec, extract_image_url, asyncLocateSpec,
    find_first_content_image, infoboxRule, thumbRule, fileRule, markerRule,
    optTagSrcTruthy, tagSrcTruthy]

/-- Witness for C5 amended, at the thumbnail-only page. -/
theorem spec_c5_witness :
    syncSelectSrc soupThumbOnly = locateSpec soupThumbOnly ∧
    extract_image_url soupThumbOnly
      = (asyncLocateSpec soupThumbOnly).map normalizeImgUrl :=
  spec_c5_amended soupThumbOnly (by decide)

/-- C7 counterexample: with every destination path already present on disk,
the thread-pool worker still performs the image fetch after locating the
image (two network calls), so it does not re-check the exact destination
path before fetching. -/
theorem spec_c7_counterexample :
    envExistingDest.fileAt
      (osJoin "tmp" (sanitize_filename "Fox" "https://u/fox.jpg")) = true ∧
    download_image_from_entry envExistingDest "tmp" entryFox
      = ({ entryFox with
            local_image := some (osJoin "tmp" (sanitize_filename "Fox" "https://u/fox.jpg")) },
         2) := by decide

/-- C7 amended: the async worker is the one that re-checks the exact
destination path after locating the image; when it exists the worker sets
the local image field and performs no image fetch (one network call, the
page fetch only). -/
theorem spec_c7_amended (env : WorkerEnv) (dir : String) (e : Entry)
    (soup : Soup) (u : String)
    (hurl : optTruthy e.wiki_url = true)
    (hmiss : env.listing.filter
      (fun fn => startswithS (safeName (e.name.getD "unknown")) fn) = [])
    (hpage : env.page (e.wiki_url.getD "") = some soup)
    (hext : extract_image_url soup = some u)
    (hex : env.fileAt
      (osJoin dir (sanitize_filename (e.name.getD "unknown") u)) = true) :
    process_entry env dir e
      = ({ e with
            local_image := some (osJoin dir (sanitize_filename (e.name.getD "unknown") u)) },
         1) :=
  exists_hit_async env dir e soup u hurl hmiss hpage hext hex

/-- Witness for C7 amended: the async worker on the Fox entity with the
destination already on disk makes only the page fetch. -/
theorem spec_c7_witness :
    process_entry envExistingDest "tmp" entryFox
      = ({ entryFox with
            local_image := some (osJoin "tmp" (sanitize_filename (entryFox.name.getD "unknown") "https://u/fox.jpg")) },
         1) :=
  spec_c7_amended envExistingDest "tmp" entryFox soupInfoboxFox "https://u/fox.jpg"
    (by decide) (by decide) (by decide) (by decide) (by decide)

/-- C8 counterexample: a name with a run of two spaces sanitizes to two
underscores under the source's sanitizer, not to the single separator the
claim demands. -/
theorem spec_c8_counterexample :
    safeName "a  b" = "a__b" ∧
    safeNameSpecC8 "a  b" = "a_b" ∧
    safeName "a  b" ≠ safeNameSpecC8 "a  b" := by decide

/-- C8 amended: the sanitizer lower-cases, trims, replaces each space
character with one underscore — so a run of k spaces becomes k underscores,
not one — and strips every character outside the permitted set. -/
theorem spec_c8_amended (k : Nat) (hk : 0 < k) :
    safeName ⟨'a' :: (List.replicate k ' ' ++ ['b'])⟩
      = ⟨'a' :: (List.replicate k '_' ++ ['b'])⟩ := by
  show String.mk (sanitizeChars ('a' :: (List.replicate k ' ' ++ ['b'])))
      = String.mk ('a' :: (List.replicate k '_' ++ ['b']))
  apply congrArg
  unfold sanitizeChars
  rw [List.map_cons, List.map_append, List.map_replicate]
  rw [show Char.toLower 'a' = 'a' from by decide,
    show Char.toLower ' ' = ' ' from by decide,
    show List.map Char.toLower ['b'] = ['b'] from by decide]
  rw [pyStrip_cons_concat 'a' 'b' _ (by decide) (by decide)]
  rw [List.map_cons, List.map_append, List.map_replicate]
  rw [show spaceToUnderscore 'a' = 'a' from by decide,
    show spaceToUnderscore ' ' = '_' from by decide,
    show List.map spaceToUnderscore ['b'] = ['b'] from by decide]
  apply List.filter_eq_self.mpr
  intro x hx
  simp only [List.mem_cons, List.mem_append, List.mem_replicate,
    List.mem_singleton] at hx
  rcases hx with rfl | hx1
  · decide
  rcases hx1 with ⟨-, rfl⟩ | hx2
  · decide
  rcases hx2 with rfl | hx3
  · decide
  · exact absurd hx3 (List.not_mem_nil x)

/-- Witness for C8 amended at a run of two spaces. -/
theorem spec_c8_amended_witness :
    safeName ⟨'a' :: (List.replicate 2 ' ' ++ ['b'])⟩
      = ⟨'a' :: (List.replicate 2 '_' ++ ['b'])⟩ :=
  spec_c8_amended 2 (by decide)

/-- C9: the sanitizing transform is idempotent, and its output contains
only lowercase alphanumerics, underscores and hyphens. -/
theorem spec_c9 (n : String) :
    safeName (safeName n) = safeName n ∧
    ∀ c ∈ (safeName n).data,
      (c.isAlphanum && !isUpperAscii c || c == '_' || c == '-') = true := by
  constructor
  · exact congrArg String.mk (sanitizeChars_idem n.data)
  · intro c hc
    obtain ⟨hk, hu⟩ := sanitizeChars_mem (l := n.data) hc
    simp only [Bool.or_eq_true, Bool.and_eq_true, Bool.not_eq_true', beq_iff_eq]
    simp only [keepChar, Bool.or_eq_true, decide_eq_true_eq] at hk
    rcases hk with (ha | h1) | h2
    · exact Or.inl (Or.inl ⟨ha, hu⟩)
    · exact Or.inl (Or.inr h1)
    · exact Or.inr h2

/-- Witness for C9 at the name Red Fox and its first output character. -/
theorem spec_c9_witness :
    safeName (safeName "Red Fox") = safeName "Red Fox" ∧
    (('r' : Char).isAlphanum && !isUpperAscii 'r' || 'r' == '_' || 'r' == '-') = true :=
  ⟨(spec_c9 "Red Fox").1, (spec_c9 "Red Fox").2 'r' (by decide)⟩

end WikiScraper
